import Mathlib

/-!
Shallow embedding of `src/cli.py` (webchecker): a small web page checker
that fetches configured pages, evaluates textual requirements against the
response body, records timestamped events in a per-page JSON log, and
serves a status page rendering the most recent events.

Modelling conventions:
* Python dicts are insertion-ordered association lists.
* `time.time()` values (seconds since epoch) and durations are rationals
  (`ℚ`); the program performs no arithmetic on them beyond a subtraction.
* The outcome of `requests.get(url)` is an environment input, modelled as
  `Except String String`: `.error e` is a raised transport exception with
  message `e`, `.ok text` is a successful response with body `text`.
* `re.search(term, content)` is modelled by `re_search`: the claims only
  exercise metacharacter-free literal patterns, for which Python's
  `re.search` succeeds exactly when the pattern occurs as a substring of
  the content.
* `print` output is returned as an explicit list of printed strings.
* The log file on disk is modelled as `Option LogDoc` (the parsed JSON
  document, `none` when the file does not exist); `json.dump` is modelled
  by the deterministic serializer `json_dump`, with `json.load` as its
  inverse on documents this program writes.
-/

/-- One requirement from the config file: a JSON array whose first element
is the requirement name and whose remaining elements are string
parameters (`requirement[0]` / `requirement[1:]` in `check_page`). -/
abbrev Requirement := List String

/-- The payload of an event dict built in `check_page`, minus the
`timestamp` key that `Log.add_event` stamps on it. -/
inductive EventData where
  | response_failed (error : String)
  | response_received (duration : ℚ)
  | requirement_passed (requirement : Requirement)
  | requirement_failed (requirement : Requirement)
deriving DecidableEq, Repr

/-- A logged event: the payload plus the `timestamp` field added by
`Log.add_event`. -/
structure Event where
  data : EventData
  timestamp : ℚ
deriving DecidableEq, Repr

/-- The in-memory log mapping (`Log._log`): page name to ordered event
list, insertion-ordered like a Python (default)dict. -/
abbrev LogDoc := List (String × List Event)

/-- First-match lookup in an insertion-ordered mapping (`d[k]` when the
key is present). -/
def doc_lookup (m : LogDoc) (page : String) : Option (List Event) :=
  match m with
  | [] => none
  | (p, es) :: rest => if p = page then some es else doc_lookup rest page

/-- `defaultdict(list)` append: `self._log[page].append(event)`.  If the
page is absent the defaultdict inserts it (at the end, insertion order)
with a fresh list before appending. -/
def doc_append (m : LogDoc) (page : String) (e : Event) : LogDoc :=
  match m with
  | [] => [(page, [e])]
  | (p, es) :: rest =>
      if p = page then (p, es ++ [e]) :: rest
      else (p, es) :: doc_append rest page e

/-- Models Python `re.search(term, content) is not None` for the
metacharacter-free literal patterns used by this development, for which a
regex match is exactly a substring occurrence of `term` in `content`. -/
def re_search (term content : String) : Bool :=
  chars_contain term.toList content.toList
where
  /-- Does `needle` occur as a contiguous sublist of `hay`? -/
  chars_contain (needle hay : List Char) : Bool :=
    match hay with
    | [] => needle.isEmpty
    | _ :: t => needle.isPrefixOf hay || chars_contain needle t

/-- `content_includes_checker(content, *terms)`: loops over the terms,
and on the first term with no regex match prints the content and returns
`False`; returns `True` if every term matches.  The second component is
the list of printed lines. -/
def content_includes_checker (content : String) (terms : List String) :
    Bool × List String :=
  match terms with
  | [] => (true, [])
  | term :: rest =>
      if re_search term content then content_includes_checker content rest
      else (false, [content])

/-- `content_does_not_include_checker(content, *terms)`: returns `False`
on the first term with a regex match, `True` if none match.  Prints
nothing; the second component is the (empty) list of printed lines. -/
def content_does_not_include_checker (content : String)
    (terms : List String) : Bool × List String :=
  match terms with
  | [] => (true, [])
  | term :: rest =>
      if re_search term content then (false, [])
      else content_does_not_include_checker content rest

/-- The checker registry returned by `get_requirement_checkers()`,
modelled as its lookup function (`registry[name]` is `none` for an
unknown name, where Python raises `KeyError`). -/
def get_requirement_checkers (name : String) :
    Option (String → List String → Bool × List String) :=
  if name = "content_includes" then some content_includes_checker
  else if name = "content_does_not_include" then
    some content_does_not_include_checker
  else none

/-- The `Log` object: log file path, verbose flag, and the in-memory
defaultdict `_log`. -/
structure Log where
  logfile : String
  verbose : Bool
  log : LogDoc
deriving DecidableEq, Repr

/-- JSON string literal (`json.dump` of a string; the escaping of exotic
characters is not exercised here). -/
def json_str (s : String) : String := "\"" ++ s ++ "\""

/-- Deterministic rendering of a JSON number (CPython's float repr is a
deterministic function of the value; only determinism matters here). -/
def json_num (q : ℚ) : String := toString q.num ++ "/" ++ toString q.den

/-- `json.dump` of one event dict, keys in insertion order: the keys set
by `check_page` first, then the `timestamp` key added by `add_event`. -/
def json_event (e : Event) : String :=
  match e.data with
  | .response_failed err =>
      "\x7b\"type\": \"response_failed\", \"error\": " ++ json_str err ++
        ", \"timestamp\": " ++ json_num e.timestamp ++ "\x7d"
  | .response_received d =>
      "\x7b\"type\": \"response_received\", \"duration\": " ++ json_num d ++
        ", \"timestamp\": " ++ json_num e.timestamp ++ "\x7d"
  | .requirement_passed r =>
      "\x7b\"type\": \"requirement_passed\", \"requirement\": [" ++
        String.intercalate ", " (r.map json_str) ++ "], \"timestamp\": " ++
        json_num e.timestamp ++ "\x7d"
  | .requirement_failed r =>
      "\x7b\"type\": \"requirement_failed\", \"requirement\": [" ++
        String.intercalate ", " (r.map json_str) ++ "], \"timestamp\": " ++
        json_num e.timestamp ++ "\x7d"

/-- `json.dump(self._log, f)`: serialize the whole mapping, keys in
insertion order. -/
def json_dump (m : LogDoc) : String :=
  "\x7b" ++
    String.intercalate ", "
      (m.map fun pe =>
        json_str pe.1 ++ ": [" ++
          String.intercalate ", " (pe.2.map json_event) ++ "]") ++
  "\x7d"

/-- `Log.__init__(logfile, verbose)`.  `file` is the current log file
content (`none` when `os.path.exists` is false).  Returns the
constructed object and the file content written by the constructor
(`self.save()` on the missing-file branch), `none` when nothing is
written.  On the existing-file branch `defaultdict(list).update(doc)`
yields exactly `doc` as an ordered mapping. -/
def Log.init (logfile : String) (verbose : Bool) (file : Option LogDoc) :
    Log × Option LogDoc :=
  match file with
  | none => ({ logfile := logfile, verbose := verbose, log := [] }, some [])
  | some doc =>
      ({ logfile := logfile, verbose := verbose, log := doc }, none)

/-- `Log.add_event(page, event)`: stamps the event with the current
wall-clock time `now` (`event['timestamp'] = time.time()`) and appends it
to the page's list. -/
def Log.add_event (l : Log) (page : String) (data : EventData) (now : ℚ) :
    Log :=
  { l with log := doc_append l.log page { data := data, timestamp := now } }

/-- `Log.get_pages()`: the mapping's keys, in insertion order. -/
def Log.get_pages (l : Log) : List String := l.log.map Prod.fst

/-- `Log.get_events(page)`: `self._log[page]` on a defaultdict — returns
the page's event list, but for an absent page first inserts the page with
a fresh empty list.  Returns the event list and the (possibly mutated)
log object. -/
def Log.get_events (l : Log) (page : String) : List Event × Log :=
  match doc_lookup l.log page with
  | some es => (es, l)
  | none => ([], { l with log := l.log ++ [(page, [])] })

/-- `Log.save()`: serializes the whole in-memory mapping to the log file,
overwriting it.  Returns the (unchanged) object and the document now on
disk; `json_dump` of that document is the byte content written. -/
def Log.save (l : Log) : Log × LogDoc := (l, l.log)

/-- Events currently recorded for a page (read-only accessor used in
statements; `[]` for an unknown page). -/
def events_for (l : Log) (page : String) : List Event :=
  (doc_lookup l.log page).getD []

/-- One page's entry in the parsed config file: `url` plus the ordered
requirement list. -/
structure PageConfig where
  url : String
  requirements : List Requirement
deriving DecidableEq, Repr

/-- The `for requirement in config['requirements']` loop of
`check_page`: look the checker up by name (`KeyError` escapes on an
unknown name, `IndexError` on an empty requirement array), invoke it on
the response body and the parameters, and record a passed/failed event
carrying the full requirement.  `i` indexes the `clock` readings. -/
def check_requirements (page : String) (clock : Nat → ℚ) (text : String) :
    List Requirement → Log → Nat → Except String Log
  | [], l, _ => .ok l
  | requirement :: rest, l, i =>
      match requirement with
      | [] => .error "IndexError: list index out of range"
      | requirement_name :: requirement_params =>
          match get_requirement_checkers requirement_name with
          | none => .error ("KeyError: " ++ requirement_name)
          | some matcher =>
              let is_valid := (matcher text requirement_params).1
              let l1 :=
                if is_valid then
                  l.add_event page (.requirement_passed requirement)
                    (clock i)
                else
                  l.add_event page (.requirement_failed requirement)
                    (clock i)
              check_requirements page clock text rest l1 (i + 1)

/-- `check_page(page, config, log)`, given the environment: `response`
is the outcome of `requests.get(config['url'])`, `t_start`/`t_end` the
wall-clock readings around the request, and `clock i` the `time.time()`
value at the i-th `add_event` call.  `.error` models an uncaught Python
exception escaping the call. -/
def check_page (page : String) (config : PageConfig) (l : Log)
    (response : Except String String) (t_start t_end : ℚ)
    (clock : Nat → ℚ) : Except String Log :=
  match response with
  | .error e => .ok (l.add_event page (.response_failed e) (clock 0))
  | .ok text =>
      let duration := t_end - t_start
      let l1 := l.add_event page (.response_received duration) (clock 0)
      check_requirements page clock text config.requirements l1 1

/-- `load_config(configfile)`: `file` is the parsed config when the path
exists, `none` otherwise.  On a missing file the code calls
`sys.abort(-1)`, a nonexistent attribute, so an `AttributeError` escapes
and (unhandled anywhere up the stack) terminates the process; either way
the function never returns a value. -/
def load_config (file : Option (List (String × PageConfig))) :
    Except String (List (String × PageConfig)) :=
  match file with
  | none => .error "AttributeError: module sys has no attribute abort"
  | some config => .ok config

/-- Python `events[-10:]`: the last `n` elements (the whole list when it
is shorter). -/
def takeLastN (xs : List Event) (n : Nat) : List Event :=
  (xs.reverse.take n).reverse

/-- One `<li>` line of the status page for an event.  `fts` models
`str(datetime.datetime.fromtimestamp(·))` (the human-readable timestamp)
and `f2` models the `:.2f` format of a duration; both are deterministic
rendering primitives of the runtime, passed in abstractly. -/
def render_event (fts f2 : ℚ → String) (e : Event) : String :=
  let ts := fts e.timestamp
  match e.data with
  | .response_failed _ => "<li>" ++ ts ++ " Response failed</li>"
  | .response_received duration =>
      "<li>" ++ ts ++ " Response received in " ++ f2 duration ++ " s</li>"
  | .requirement_passed requirement =>
      "<li>" ++ ts ++ " Requirement " ++ render_requirement requirement ++
        " passed</li>"
  | .requirement_failed requirement =>
      "<li>" ++ ts ++ " Requirement " ++ render_requirement requirement ++
        " failed</li>"
where
  /-- Python's `str` of the requirement list interpolated into the
  f-string. -/
  render_requirement (r : Requirement) : String :=
    "[" ++ String.intercalate ", " (r.map fun s => "'" ++ s ++ "'") ++ "]"

/-- The `<li>` items rendered for one page: the last 10 events,
reversed (`reversed(log.get_events(page)[-10:])`). -/
def page_items (fts f2 : ℚ → String) (es : List Event) : List String :=
  ((takeLastN es 10).reverse).map (render_event fts f2)

/-- `status_page()` of the Flask route: re-opens the log from `file`,
then for every known page emits a heading and the page's items, and
joins everything with `""`.  Every page returned by `get_pages()` is a
key of the mapping, so the `get_events` calls do not mutate it. -/
def status_page (fts f2 : ℚ → String) (file : Option LogDoc) : String :=
  let l := (Log.init "log" false file).1
  String.join
    (l.get_pages.map fun page =>
      "<p>" ++ page ++ "</p><ul>" ++
        String.join (page_items fts f2 (l.get_events page).1) ++ "</ul>")

/-- Environment of one run: the transport outcome and the clock readings,
indexed by pass number and page name (`clock k page i` is the i-th
`time.time()` read inside `check_page` for `page` during pass `k`). -/
structure RunEnv where
  response : Nat → String → Except String String
  t_start : Nat → String → ℚ
  t_end : Nat → String → ℚ
  clock : Nat → String → Nat → ℚ

/-- The `for page, config in pages.items()` body of one pass of
`run_check`: check the page, then `log.save()`.  Returns the log, the
trace of pages for which `check_page` was invoked, and the list of
documents written by the per-page `save()` calls; `.error` is an uncaught
exception aborting the run. -/
def run_pass (env : RunEnv) (k : Nat) :
    List (String × PageConfig) → Log →
    Except String (Log × List String × List LogDoc)
  | [], l => .ok (l, [], [])
  | (page, config) :: rest, l =>
      match check_page page config l (env.response k page)
          (env.t_start k page) (env.t_end k page) (env.clock k page) with
      | .error e => .error e
      | .ok l1 =>
          let saved := l1.save
          match run_pass env k rest saved.1 with
          | .error e => .error e
          | .ok (l2, trace, writes) =>
              .ok (l2, page :: trace, saved.2 :: writes)

/-- The `while True` loop of `run_check`, with an explicit step budget:
`none` means the loop is still running after `fuel` passes (it never
broke out), `some r` means it terminated with outcome `r` within the
budget.  A pass is followed by `break` when `delay < 0`, else by
`time.sleep(delay)` and another pass. -/
def run_check (env : RunEnv) (delay : Int)
    (pages : List (String × PageConfig)) :
    Log → Nat → Nat → Option (Except String (Log × List String × List LogDoc))
  | _, _, 0 => none
  | l, k, fuel + 1 =>
      match run_pass env k pages l with
      | .error e => some (.error e)
      | .ok (l1, trace, writes) =>
          if delay < 0 then some (.ok (l1, trace, writes))
          else run_check env delay pages l1 (k + 1) fuel

/-- A requirement whose evaluation does not raise: a nonempty array
whose name is registered. -/
def wf_requirement (req : Requirement) : Prop :=
  ∃ name ps, req = name :: ps ∧ (get_requirement_checkers name).isSome

/-- The events the requirement loop appends when every requirement
passes, with the clock readings starting at index `i`. -/
def passedEvents (clock : Nat → ℚ) : List Requirement → Nat → List Event
  | [], _ => []
  | req :: rest, i =>
      ⟨.requirement_passed req, clock i⟩ :: passedEvents clock rest (i + 1)

/-! ### Basic lemmas about the log mapping -/

theorem doc_lookup_doc_append_self (m : LogDoc) (page : String) (e : Event) :
    doc_lookup (doc_append m page e) page =
      some ((doc_lookup m page).getD [] ++ [e]) := by
  induction m with
  | nil => simp [doc_append, doc_lookup]
  | cons pe rest ih =>
      obtain ⟨p, es⟩ := pe
      by_cases h : p = page
      · subst h; simp [doc_append, doc_lookup]
      · simp [doc_append, doc_lookup, h, ih]

theorem doc_lookup_doc_append_ne (m : LogDoc) (page q : String) (e : Event)
    (h : q ≠ page) :
    doc_lookup (doc_append m page e) q = doc_lookup m q := by
  induction m with
  | nil => simp [doc_append, doc_lookup, Ne.symm h]
  | cons pe rest ih =>
      obtain ⟨p, es⟩ := pe
      by_cases hp : p = page
      · subst hp
        simp [doc_append, doc_lookup, Ne.symm h]
      · by_cases hq : p = q
        · subst hq
          simp [doc_append, doc_lookup, hp]
        · simp [doc_append, doc_lookup, hp, hq, ih]

theorem events_for_add_event (l : Log) (page : String) (d : EventData)
    (now : ℚ) :
    events_for (l.add_event page d now) page =
      events_for l page ++ [⟨d, now⟩] := by
  unfold events_for Log.add_event
  rw [doc_lookup_doc_append_self]
  simp

theorem events_for_add_event_ne (l : Log) (page q : String) (d : EventData)
    (now : ℚ) (h : q ≠ page) :
    events_for (l.add_event page d now) q = events_for l q := by
  unfold events_for Log.add_event
  rw [doc_lookup_doc_append_ne _ _ _ _ h]

/-! ### Requirement checkers -/

theorem content_includes_fst (content : String) (terms : List String) :
    (content_includes_checker content terms).1 =
      terms.all fun t => re_search t content := by
  induction terms with
  | nil => simp [content_includes_checker]
  | cons t rest ih =>
      by_cases h : re_search t content <;>
        simp [content_includes_checker, h, ih]

theorem content_includes_snd (content : String) (terms : List String) :
    (content_includes_checker content terms).2 =
      if terms.all (fun t => re_search t content) then [] else [content] := by
  induction terms with
  | nil => simp [content_includes_checker]
  | cons t rest ih =>
      by_cases h : re_search t content <;>
        simp [content_includes_checker, h, ih]

theorem content_includes_shortcircuit (content t : String)
    (pre post : List String)
    (hpre : ∀ u ∈ pre, re_search u content = true)
    (ht : re_search t content = false) :
    content_includes_checker content (pre ++ t :: post) =
      (false, [content]) := by
  induction pre with
  | nil => simp [content_includes_checker, ht]
  | cons u rest ih =>
      have hu : re_search u content = true := hpre u (by simp)
      simp only [List.cons_append, content_includes_checker, hu, if_true]
      exact ih fun v hv => hpre v (by simp [hv])

theorem content_does_not_include_fst (content : String)
    (terms : List String) :
    (content_does_not_include_checker content terms).1 =
      terms.all fun t => !re_search t content := by
  induction terms with
  | nil => simp [content_does_not_include_checker]
  | cons t rest ih =>
      by_cases h : re_search t content <;>
        simp [content_does_not_include_checker, h, ih]

theorem content_does_not_include_shortcircuit (content t : String)
    (pre post : List String)
    (hpre : ∀ u ∈ pre, re_search u content = false)
    (ht : re_search t content = true) :
    content_does_not_include_checker content (pre ++ t :: post) =
      (false, []) := by
  induction pre with
  | nil => simp [content_does_not_include_checker, ht]
  | cons u rest ih =>
      have hu : re_search u content = false := hpre u (by simp)
      simp only [List.cons_append, content_does_not_include_checker, hu,
        Bool.false_eq_true, if_false]
      exact ih fun v hv => hpre v (by simp [hv])

/-- C7: `content_includes` returns true iff every parameter matches the
text under the regex engine; as soon as one parameter fails (every
earlier one matching) it returns false with the full response body
printed, independently of the later parameters; and on the concrete
examples, `content_includes("hello world", "hello")` is true while
`content_includes("hello world", "xyz")` is false. -/
theorem C7_content_includes (content : String) (terms : List String)
    (hne : terms ≠ []) :
    ((content_includes_checker content terms).1 = true ↔
      ∀ t ∈ terms, re_search t content = true) ∧
    ((content_includes_checker content terms).2 =
      if terms.all (fun t => re_search t content) then [] else [content]) ∧
    (∀ pre t post, terms = pre ++ t :: post →
      (∀ u ∈ pre, re_search u content = true) →
      re_search t content = false →
      content_includes_checker content terms = (false, [content])) ∧
    (content_includes_checker "hello world" ["hello"]).1 = true ∧
    (content_includes_checker "hello world" ["xyz"]).1 = false := by
  refine ⟨?_, content_includes_snd content terms, ?_, by decide, by decide⟩
  · rw [content_includes_fst]; simp [List.all_eq_true]
  · intro pre t post hsplit hpre ht
    subst hsplit
    exact content_includes_shortcircuit content t pre post hpre ht

theorem C7_witness :
    (content_includes_checker "hello world" ["hello"]).1 = true :=
  (C7_content_includes "hello world" ["hello"] (by decide)).2.2.2.1

/-- C8: `content_does_not_include` returns false as soon as any
parameter matches the text under the regex engine (every earlier one not
matching), independently of the later parameters, and returns true iff
none match; on the concrete examples,
`content_does_not_include("hello world", "xyz")` is true while
`content_does_not_include("hello world", "hello")` is false. -/
theorem C8_content_does_not_include (content : String)
    (terms : List String) :
    ((content_does_not_include_checker content terms).1 = true ↔
      ∀ t ∈ terms, re_search t content = false) ∧
    (∀ pre t post, terms = pre ++ t :: post →
      (∀ u ∈ pre, re_search u content = false) →
      re_search t content = true →
      content_does_not_include_checker content terms = (false, [])) ∧
    (content_does_not_include_checker "hello world" ["xyz"]).1 = true ∧
    (content_does_not_include_checker "hello world" ["hello"]).1 = false := by
  refine ⟨?_, ?_, by decide, by decide⟩
  · rw [content_does_not_include_fst]; simp [List.all_eq_true]
  · intro pre t post hsplit hpre ht
    subst hsplit
    exact content_does_not_include_shortcircuit content t pre post hpre ht

/-! ### The requirement loop of `check_page` -/

theorem passedEvents_length (clock : Nat → ℚ) (reqs : List Requirement) :
    ∀ i, (passedEvents clock reqs i).length = reqs.length := by
  induction reqs with
  | nil => intro i; rfl
  | cons req rest ih => intro i; simp [passedEvents, ih]

theorem check_requirements_ok (page : String) (clock : Nat → ℚ)
    (text : String) (reqs : List Requirement) :
    ∀ (l : Log) (i : Nat), (∀ req ∈ reqs, wf_requirement req) →
    ∃ l', check_requirements page clock text reqs l i = .ok l' ∧
      (events_for l' page).length =
        (events_for l page).length + reqs.length ∧
      ∀ q, q ≠ page → events_for l' q = events_for l q := by
  induction reqs with
  | nil => intro l i _; exact ⟨l, rfl, by simp, fun _ _ => rfl⟩
  | cons req rest ih =>
      intro l i h
      obtain ⟨name, ps, hreq, hsome⟩ := h req (by simp)
      subst hreq
      obtain ⟨m, hm⟩ := Option.isSome_iff_exists.mp hsome
      obtain ⟨l', h1, h2, h3⟩ :=
        ih (if (m text ps).1 = true
            then l.add_event page (.requirement_passed (name :: ps)) (clock i)
            else l.add_event page (.requirement_failed (name :: ps)) (clock i))
          (i + 1) (fun r hr => h r (by simp [hr]))
      refine ⟨l', ?_, ?_, ?_⟩
      · simp only [check_requirements, hm]
        exact h1
      · rw [h2]
        by_cases hv : (m text ps).1 = true
        · rw [if_pos hv, events_for_add_event]
          simp only [List.length_append, List.length_cons, List.length_nil]
          omega
        · rw [if_neg hv, events_for_add_event]
          simp only [List.length_append, List.length_cons, List.length_nil]
          omega
      · intro q hq
        rw [h3 q hq]
        by_cases hv : (m text ps).1 = true
        · rw [if_pos hv, events_for_add_event_ne _ _ _ _ _ hq]
        · rw [if_neg hv, events_for_add_event_ne _ _ _ _ _ hq]

theorem check_requirements_all_pass (page : String) (clock : Nat → ℚ)
    (text : String) (reqs : List Requirement) :
    ∀ (l : Log) (i : Nat),
    (∀ req ∈ reqs, ∃ name ps, req = name :: ps ∧
      ∃ m, get_requirement_checkers name = some m ∧ (m text ps).1 = true) →
    ∃ l', check_requirements page clock text reqs l i = .ok l' ∧
      events_for l' page = events_for l page ++ passedEvents clock reqs i := by
  induction reqs with
  | nil => intro l i _; exact ⟨l, rfl, by simp [passedEvents]⟩
  | cons req rest ih =>
      intro l i h
      obtain ⟨name, ps, hreq, m, hm, hv⟩ := h req (by simp)
      subst hreq
      obtain ⟨l', h1, h2⟩ :=
        ih (l.add_event page (.requirement_passed (name :: ps)) (clock i))
          (i + 1) (fun r hr => h r (by simp [hr]))
      refine ⟨l', ?_, ?_⟩
      · simp only [check_requirements, hm, hv, if_true]
        exact h1
      · rw [h2, events_for_add_event]
        simp [passedEvents]

/-- C2: when `requests.get` raises a transport failure, `check_page`
returns normally (no exception escapes, so neither the pass nor the
process aborts) and records exactly one `response_failed` event carrying
the error description on that page, evaluating no requirements: the new
log is exactly the old one with that single event appended to `page` and
every other page untouched. -/
theorem C2_transport_failure (page : String) (config : PageConfig)
    (l : Log) (e : String) (t_start t_end : ℚ) (clock : Nat → ℚ) :
    check_page page config l (.error e) t_start t_end clock =
      .ok (l.add_event page (.response_failed e) (clock 0)) ∧
    events_for (l.add_event page (.response_failed e) (clock 0)) page =
      events_for l page ++ [⟨.response_failed e, clock 0⟩] ∧
    ∀ q, q ≠ page →
      events_for (l.add_event page (.response_failed e) (clock 0)) q =
        events_for l q :=
  ⟨rfl, events_for_add_event l page (.response_failed e) (clock 0),
    fun q hq => events_for_add_event_ne l page q (.response_failed e)
      (clock 0) hq⟩

/-- C1 fails as stated: a successful check of a page with 0 passing
requirements appends 1 event (the `response_received`), not
1 + (1 + 0) = 2 as the claimed count demands. -/
theorem C1_counterexample :
    check_page "p" ⟨"u", []⟩ ⟨"log", false, []⟩ (.ok "body") 0 1
        (fun _ => 0) =
      .ok ⟨"log", false, [("p", [⟨.response_received (1 - 0), 0⟩])]⟩ ∧
    (events_for
        ⟨"log", false, [("p", [⟨.response_received (1 - 0), 0⟩])]⟩
        "p").length ≠
      1 + (1 + (⟨"u", []⟩ : PageConfig).requirements.length) :=
  ⟨rfl, by decide⟩

/-- C1 (amended): for a page whose HTTP GET succeeds and all of whose
requirements pass, one `check_page` invocation appends exactly
1 + number_of_requirements events to that page's log — one
`response_received` plus one passed event per requirement — and if the
transport call itself fails, only the failure event is appended. -/
theorem C1_event_count (page : String) (config : PageConfig) (l : Log)
    (text : String) (t_start t_end : ℚ) (clock : Nat → ℚ)
    (hpass : ∀ req ∈ config.requirements, ∃ name ps, req = name :: ps ∧
      ∃ m, get_requirement_checkers name = some m ∧ (m text ps).1 = true) :
    (∃ l', check_page page config l (.ok text) t_start t_end clock =
        .ok l' ∧
      events_for l' page =
        events_for l page ++
          (⟨.response_received (t_end - t_start), clock 0⟩ ::
            passedEvents clock config.requirements 1) ∧
      (events_for l' page).length =
        (events_for l page).length + (1 + config.requirements.length)) ∧
    ∀ e, check_page page config l (.error e) t_start t_end clock =
      .ok (l.add_event page (.response_failed e) (clock 0)) := by
  constructor
  · obtain ⟨l', h1, h2⟩ :=
      check_requirements_all_pass page clock text config.requirements
        (l.add_event page (.response_received (t_end - t_start)) (clock 0))
        1 hpass
    refine ⟨l', h1, ?_, ?_⟩
    · rw [h2, events_for_add_event, List.append_assoc]
      rfl
    · rw [h2, events_for_add_event, List.append_assoc]
      simp only [List.length_append, List.singleton_append,
        List.length_cons, passedEvents_length]
      omega
  · intro e
    rfl

theorem C1_witness :
    ∃ l', check_page "p" ⟨"u", [["content_includes", "hello"]]⟩
        ⟨"log", false, []⟩ (.ok "hello world") 0 1 (fun _ => 0) =
        .ok l' ∧
      events_for l' "p" =
        events_for (⟨"log", false, []⟩ : Log) "p" ++
          (⟨.response_received (1 - 0), 0⟩ ::
            passedEvents (fun _ => 0) [["content_includes", "hello"]] 1) ∧
      (events_for l' "p").length =
        (events_for (⟨"log", false, []⟩ : Log) "p").length + (1 + 1) :=
  (C1_event_count "p" ⟨"u", [["content_includes", "hello"]]⟩
    ⟨"log", false, []⟩ "hello world" 0 1 (fun _ => 0)
    (by
      intro req hreq
      simp only [List.mem_singleton] at hreq
      subst hreq
      exact ⟨"content_includes", ["hello"], rfl,
        content_includes_checker, rfl, by decide⟩)).1

/-! ### The log object -/

theorem doc_lookup_eq_none_of_not_mem (m : LogDoc) (page : String)
    (h : page ∉ m.map Prod.fst) : doc_lookup m page = none := by
  induction m with
  | nil => rfl
  | cons pe rest ih =>
      obtain ⟨p, es⟩ := pe
      simp only [List.map_cons, List.mem_cons, not_or] at h
      simp only [doc_lookup, if_neg (Ne.symm h.1)]
      exact ih h.2

theorem doc_lookup_append_right (m : LogDoc) (page : String)
    (es : List Event) (h : doc_lookup m page = none) :
    doc_lookup (m ++ [(page, es)]) page = some es := by
  induction m with
  | nil => simp [doc_lookup]
  | cons pe rest ih =>
      obtain ⟨p, es'⟩ := pe
      simp only [doc_lookup] at h
      by_cases hp : p = page
      · simp [hp] at h
      · simp only [List.cons_append, doc_lookup, if_neg hp]
        exact ih (by simpa [hp] using h)

/-- C10: calling `get_events` on a page not present in the log returns
the empty list but also mutates the log — the defaultdict inserts the
page as a key with an empty event list — so `get_pages()` now includes
the page and a subsequent `save()` persists a document carrying the page
with an empty event list. -/
theorem C10_get_events_inserts (l : Log) (page : String)
    (h : page ∉ l.get_pages) :
    (l.get_events page).1 = [] ∧
    (l.get_events page).2.get_pages = l.get_pages ++ [page] ∧
    page ∈ (l.get_events page).2.get_pages ∧
    doc_lookup ((l.get_events page).2.save).2 page = some [] := by
  have hnone : doc_lookup l.log page = none :=
    doc_lookup_eq_none_of_not_mem l.log page h
  have hunfold : l.get_events page =
      ([], { l with log := l.log ++ [(page, [])] }) := by
    unfold Log.get_events
    rw [hnone]
  refine ⟨by rw [hunfold], ?_, ?_, ?_⟩
  · rw [hunfold]
    simp [Log.get_pages]
  · rw [hunfold]
    simp [Log.get_pages]
  · rw [hunfold]
    exact doc_lookup_append_right l.log page [] hnone

theorem C10_witness :
    ((⟨"log", false, [("a", [])]⟩ : Log).get_events "p").1 = [] ∧
    ((⟨"log", false, [("a", [])]⟩ : Log).get_events "p").2.get_pages =
      (⟨"log", false, [("a", [])]⟩ : Log).get_pages ++ ["p"] ∧
    "p" ∈ ((⟨"log", false, [("a", [])]⟩ : Log).get_events "p").2.get_pages ∧
    doc_lookup (((⟨"log", false, [("a", [])]⟩ : Log).get_events
        "p").2.save).2 "p" = some [] :=
  C10_get_events_inserts ⟨"log", false, [("a", [])]⟩ "p" (by decide)

/-- C3: round-trip through the log file.  Opening the path right after
`save()` on a freshly created empty log (created because the file was
absent, and immediately persisted) yields a log with zero pages; after
one `add_event(page, event)` followed by `save()`, reopening yields
exactly one page holding exactly one event whose payload is the one
passed in and whose timestamp is the `time.time()` value stamped at the
call, which is at least the wall-clock time `t_before` read just before
the call. -/
theorem C3_roundtrip (path : String) (v v2 : Bool) (page : String)
    (d : EventData) (t_before now : ℚ) (h : t_before ≤ now) :
    (Log.init path v2 (some ((Log.init path v none).2.getD []))).1.get_pages
        = [] ∧
    (Log.init path v2
        (some (((Log.init path v none).1.add_event page d now).save.2))
      ).1.get_pages = [page] ∧
    ((Log.init path v2
        (some (((Log.init path v none).1.add_event page d now).save.2))
      ).1.get_events page).1 = [⟨d, now⟩] ∧
    (⟨d, now⟩ : Event).data = d ∧ t_before ≤ (⟨d, now⟩ : Event).timestamp := by
  refine ⟨rfl, rfl, ?_, rfl, h⟩
  show (Log.get_events ⟨path, v2, [(page, [⟨d, now⟩])]⟩ page).1 = [⟨d, now⟩]
  simp [Log.get_events, doc_lookup]

theorem C3_witness :
    ((Log.init "log" true
        (some (((Log.init "log" true none).1.add_event "site"
          (.response_failed "err") 5).save.2))).1.get_events "site").1 =
      [⟨.response_failed "err", 5⟩] :=
  (C3_roundtrip "log" true true "site" (.response_failed "err") 4 5
    (by norm_num)).2.2.1

/-- C4: `save()` is idempotent on the file content — `save()` does not
change the in-memory mapping, and serialization is a deterministic
function of it, so a second `save()` with no intervening `add_event`
writes byte-identical content. -/
theorem C4_save_idempotent (l : Log) :
    l.save.1 = l ∧
    l.save.1.save.2 = l.save.2 ∧
    json_dump l.save.1.save.2 = json_dump l.save.2 :=
  ⟨rfl, rfl, rfl⟩

/-- C6: `load_config` on a missing path never returns a mapping — the
`sys.abort(-1)` call names a nonexistent attribute, so an
`AttributeError` escapes, and since no caller handles it the process
terminates; on an existing path it returns the parsed page-name →
PageConfig mapping. -/
theorem C6_load_config :
    (∀ config, load_config none ≠ .ok config) ∧
    (load_config none).isOk = false ∧
    ∀ config, load_config (some config) = .ok config := by
  refine ⟨fun config h => ?_, rfl, fun _ => rfl⟩
  simp [load_config] at h

/-! ### Status page -/

theorem doc_lookup_of_nodup (doc : LogDoc)
    (h : (doc.map Prod.fst).Nodup) :
    ∀ pe ∈ doc, doc_lookup doc pe.1 = some pe.2 := by
  induction doc with
  | nil => intro pe hpe; cases hpe
  | cons qe rest ih =>
      obtain ⟨q, qs⟩ := qe
      simp only [List.map_cons, List.nodup_cons] at h
      intro pe hpe
      rcases List.mem_cons.mp hpe with hpe | hpe
      · subst hpe; simp [doc_lookup]
      · have hq : q ≠ pe.1 := by
          intro hc
          exact h.1 (hc ▸ List.mem_map_of_mem Prod.fst hpe)
        simp only [doc_lookup, if_neg hq]
        exact ih h.2 pe hpe

theorem takeLastN_reverse (es : List Event) (n : Nat) :
    (takeLastN es n).reverse = es.reverse.take n := by
  simp [takeLastN]

/-- C5: the status page renders, for each known page (the log file's
keys, assumed distinct as `json.load` of a JSON object yields), the page
name as a heading followed by at most the 10 most recent events in
reverse-chronological order — the rendered items are exactly the first
10 of the newest-first event list — each with the human-readable
timestamp and its kind-specific text; a page with 15 events yields
exactly the 10 most recent. -/
theorem C5_status_page (fts f2 : ℚ → String) (doc : LogDoc)
    (hnodup : (doc.map Prod.fst).Nodup) (es : List Event)
    (h15 : es.length = 15) :
    (status_page fts f2 (some doc) =
      String.join (doc.map fun pe =>
        "<p>" ++ pe.1 ++ "</p><ul>" ++
          String.join ((pe.2.reverse.take 10).map (render_event fts f2)) ++
          "</ul>")) ∧
    (∀ es' : List Event, (es'.reverse.take 10).length = min 10 es'.length) ∧
    (es.reverse.take 10 = (es.drop 5).reverse ∧
      (es.reverse.take 10).length = 10) ∧
    (∀ ts err, render_event fts f2 ⟨.response_failed err, ts⟩ =
      "<li>" ++ fts ts ++ " Response failed</li>") ∧
    (∀ ts dur, render_event fts f2 ⟨.response_received dur, ts⟩ =
      "<li>" ++ fts ts ++ " Response received in " ++ f2 dur ++ " s</li>") ∧
    (∀ ts r, render_event fts f2 ⟨.requirement_passed r, ts⟩ =
      "<li>" ++ fts ts ++ " Requirement " ++
        render_event.render_requirement r ++ " passed</li>") ∧
    (∀ ts r, render_event fts f2 ⟨.requirement_failed r, ts⟩ =
      "<li>" ++ fts ts ++ " Requirement " ++
        render_event.render_requirement r ++ " failed</li>") := by
  refine ⟨?_, ?_, ⟨?_, ?_⟩, fun ts err => rfl, fun ts dur => rfl,
    fun ts r => rfl, fun ts r => rfl⟩
  · show String.join (((doc.map Prod.fst).map fun page =>
        "<p>" ++ page ++ "</p><ul>" ++
          String.join (page_items fts f2
            ((Log.get_events ⟨"log", false, doc⟩ page).1)) ++ "</ul>")) = _
    rw [List.map_map]
    refine congrArg String.join (List.map_congr_left fun pe hpe => ?_)
    have hlk := doc_lookup_of_nodup doc hnodup pe hpe
    simp only [Function.comp_apply, Log.get_events, hlk, page_items,
      takeLastN_reverse]
  · intro es'
    simp [List.length_take]
  · rw [List.take_reverse, h15]
  · simp [List.length_take, h15]

theorem C5_witness :
    (List.replicate 15 (⟨.response_received 1, 0⟩ : Event)).reverse.take 10 =
      ((List.replicate 15 (⟨.response_received 1, 0⟩ : Event)).drop
        5).reverse ∧
    ((List.replicate 15
        (⟨.response_received 1, 0⟩ : Event)).reverse.take 10).length = 10 :=
  (C5_status_page (fun _ => "t") (fun _ => "d")
    [("site", List.replicate 15 ⟨.response_received 1, 0⟩)] (by simp)
    (List.replicate 15 ⟨.response_received 1, 0⟩) (by simp)).2.2.1

/-! ### Run loop -/

theorem check_page_ok (page : String) (config : PageConfig) (l : Log)
    (response : Except String String) (t_start t_end : ℚ)
    (clock : Nat → ℚ)
    (hwf : ∀ req ∈ config.requirements, wf_requirement req) :
    ∃ l', check_page page config l response t_start t_end clock = .ok l' := by
  cases response with
  | error e => exact ⟨_, rfl⟩
  | ok text =>
      obtain ⟨l', h1, _⟩ := check_requirements_ok page clock text
        config.requirements
        (l.add_event page (.response_received (t_end - t_start)) (clock 0))
        1 hwf
      exact ⟨l', h1⟩

theorem run_pass_ok (env : RunEnv) (k : Nat)
    (pages : List (String × PageConfig)) :
    ∀ l : Log,
    (∀ pc ∈ pages, ∀ req ∈ pc.2.requirements, wf_requirement req) →
    ∃ l' writes,
      run_pass env k pages l = .ok (l', pages.map Prod.fst, writes) ∧
      writes.length = pages.length := by
  induction pages with
  | nil => intro l _; exact ⟨l, [], rfl, rfl⟩
  | cons pc rest ih =>
      obtain ⟨page, config⟩ := pc
      intro l h
      obtain ⟨l1, h1⟩ := check_page_ok page config l (env.response k page)
        (env.t_start k page) (env.t_end k page) (env.clock k page)
        (h (page, config) (by simp))
      obtain ⟨l2, writes, h2, hlen⟩ :=
        ih l1 fun pc hpc => h pc (by simp [hpc])
      refine ⟨l2, l1.log :: writes, ?_, by simp [hlen]⟩
      simp only [run_pass, h1, Log.save, h2]
      rfl

/-- C9: with every configured requirement well formed, a negative delay
makes the run loop execute exactly one pass — invoking the page checker
once per configured page in config order and saving the log after each
page (one file write per page) — and then terminate, whatever the step
budget; a delay ≥ 0 makes it repeat passes forever: under every finite
step budget, from any pass index and log state, it has not terminated. -/
theorem C9_run_loop (env : RunEnv) (delay : Int)
    (pages : List (String × PageConfig))
    (hwf : ∀ pc ∈ pages, ∀ req ∈ pc.2.requirements, wf_requirement req) :
    (delay < 0 → ∀ (l : Log) (fuel : Nat), ∃ l' writes,
      run_check env delay pages l 0 (fuel + 1) =
        some (.ok (l', pages.map Prod.fst, writes)) ∧
      writes.length = pages.length) ∧
    (0 ≤ delay → ∀ (fuel : Nat) (l : Log) (k : Nat),
      run_check env delay pages l k fuel = none) := by
  constructor
  · intro hneg l fuel
    obtain ⟨l', writes, h1, hlen⟩ := run_pass_ok env 0 pages l hwf
    refine ⟨l', writes, ?_, hlen⟩
    simp only [run_check, h1, if_pos hneg]
  · intro hpos fuel
    induction fuel with
    | zero => intro l k; rfl
    | succ n ih =>
        intro l k
        obtain ⟨l', writes, h1, _⟩ := run_pass_ok env k pages l hwf
        simp only [run_check, h1, if_neg (not_lt.mpr hpos)]
        exact ih l' (k + 1)

theorem C9_witness :
    (∃ l' writes,
      run_check
          ⟨fun _ _ => Except.error "boom", fun _ _ => 0, fun _ _ => 0,
            fun _ _ _ => 0⟩
          (-1) [("site", ⟨"u", []⟩)] ⟨"log", false, []⟩ 0 1 =
        some (.ok (l', ["site"], writes)) ∧ writes.length = 1) ∧
    run_check
        ⟨fun _ _ => Except.error "boom", fun _ _ => 0, fun _ _ => 0,
          fun _ _ _ => 0⟩
        0 [("site", ⟨"u", []⟩)] ⟨"log", false, []⟩ 0 3 = none := by
  have hwf : ∀ pc ∈ [("site", (⟨"u", []⟩ : PageConfig))],
      ∀ req ∈ pc.2.requirements, wf_requirement req := by
    intro pc hpc req hreq
    simp only [List.mem_singleton] at hpc
    subst hpc
    simp at hreq
  constructor
  · have h :=
      (C9_run_loop
        ⟨fun _ _ => Except.error "boom", fun _ _ => 0, fun _ _ => 0,
          fun _ _ _ => 0⟩
        (-1) [("site", ⟨"u", []⟩)] hwf).1 (by norm_num)
        ⟨"log", false, []⟩ 0
    simpa using h
  · exact
      (C9_run_loop
        ⟨fun _ _ => Except.error "boom", fun _ _ => 0, fun _ _ => 0,
          fun _ _ _ => 0⟩
        0 [("site", ⟨"u", []⟩)] hwf).2 (by norm_num) 3 ⟨"log", false, []⟩ 0

/-- C9 fails as stated for arbitrary configurations: with delay 0 and a
page whose requirement list names an unregistered checker, a successful
response makes the `KeyError` escape the requirement loop and terminate
the run — a terminal state is reached even though delay ≥ 0. -/
theorem C9_counterexample :
    run_check
        ⟨fun _ _ => Except.ok "body", fun _ _ => 0, fun _ _ => 0,
          fun _ _ _ => 0⟩
        0 [("site", ⟨"u", [["nope"]]⟩)] ⟨"log", false, []⟩ 0 1 =
      some (.error "KeyError: nope") := by
  rfl
